import Mathlib

/-!
Verification of the qmt-cb-rotation rebalance/risk-control engine.

Shallow embedding of the code paths that decide rebalance set computation,
stop-profit/stop-loss branching, ledger (position-record) updates, buy volume
computation, the reconnect state machine, the replenishment queue cut-off,
replenishment candidate selection, the bounded connection probe, and buy-amount
calculation.  Prices and amounts are modelled as rationals, volumes as
integers, wall-clock times as seconds since midnight (naturals).
-/

namespace QmtCb

/-- Sell set computed by execute_rebalance (auto_trade_service.py line 114):
ledger codes intersected with (broker holdings minus target list). -/
def to_sell_codes (project_codes current_codes target_codes : Finset String) :
    Finset String :=
  project_codes ∩ (current_codes \ target_codes)

/-- Buy set computed by execute_rebalance (auto_trade_service.py line 115):
target list minus broker holdings. -/
def to_buy_codes (current_codes target_codes : Finset String) : Finset String :=
  target_codes \ current_codes

/-- Outcome of the per-position risk check branch. -/
inductive StopAction where
  | profit
  | loss
  | hold
deriving DecidableEq

/-- Branch structure of _check_single_position (auto_trade_service.py lines
245-252): stop-profit is checked first, stop-loss in the elif. -/
def stop_check_branch (pct profitR lossR : ℚ) : StopAction :=
  if profitR ≤ pct then StopAction.profit
  else if pct ≤ -lossR then StopAction.loss
  else StopAction.hold

/-- Intraday change used by the risk monitor (auto_trade_service.py line 238). -/
def pct_change (current_price last_close : ℚ) : ℚ :=
  (current_price - last_close) / last_close

/-- A row of the position_records table (the Ledger). -/
structure PositionRecordEntry where
  stock_code : String
  stock_name : String
  volume : ℤ
  buy_price : ℚ
deriving DecidableEq

/-- Database.update_position_record (database.py lines 399-422): find the
first row with the given code; if present set its volume to
max 0 (volume - sold) and delete the row when that is ≤ 0; if absent do
nothing. -/
def update_position_record :
    List PositionRecordEntry → String → ℤ → List PositionRecordEntry
  | [], _, _ => []
  | r :: rest, code, sold =>
    if r.stock_code = code then
      if max 0 (r.volume - sold) ≤ 0 then rest
      else ⟨r.stock_code, r.stock_name, max 0 (r.volume - sold), r.buy_price⟩ :: rest
    else r :: update_position_record rest code sold

/-- Truncation toward zero, the semantics of python int() on a float. -/
def pytrunc (q : ℚ) : ℤ :=
  if 0 ≤ q then ⌊q⌋ else ⌈q⌉

/-- Volume decision of _buy_bond (auto_trade_service.py lines 483-499):
skip when price ≤ 0, compute int(amount / price / 10) * 10, skip when the
result is below one lot of 10. -/
def buy_order_volume (amount price : ℚ) : Option ℤ :=
  if price ≤ 0 then none
  else if pytrunc (amount / price / 10) * 10 < 10 then none
  else some (pytrunc (amount / price / 10) * 10)

/-- A row of the refill_queue table. -/
structure RefillItem where
  stock_code : String
  stock_name : String
  volume : ℤ
  sell_price : ℚ
  reason : String
deriving DecidableEq

/-- The 14:50 cut-off of _add_to_refill_queue, in seconds since midnight. -/
def refill_deadline_seconds : ℕ := 14 * 3600 + 50 * 60

/-- _add_to_refill_queue (auto_trade_service.py lines 742-778): drop empty
batches, drop the whole batch when the current time is strictly past 14:50,
otherwise append every sold item to the queue. -/
def add_to_refill_queue (now_seconds : ℕ) (sold_items queue : List RefillItem) :
    List RefillItem :=
  if sold_items = [] then queue
  else if refill_deadline_seconds < now_seconds then queue
  else queue ++ sold_items

/-- Maximum automatic reconnect attempts (api.py, default 3). -/
def qmt_max_reconnect_attempts : ℕ := 3

/-- Observable state of the reconnect machinery in api.py: the failure
counter, the time of the last reconnect attempt, how many terminal failure
notifications were sent, and how many disconnect/connect sequences ran. -/
structure ReconnectState where
  reconnect_count : ℕ
  last_reconnect_time : Option ℕ
  terminal_notifications : ℕ
  reconnect_attempts : ℕ
deriving DecidableEq

/-- One disconnect/connect attempt that fails (api.py lines 666-709): stamp
the time, increment the counter, run the attempt, and in the exception
handler send the terminal notification when the counter has reached the
maximum. -/
def reconnect_attempt_fail (t : ℕ) (s : ReconnectState) : ReconnectState :=
  if qmt_max_reconnect_attempts ≤ s.reconnect_count + 1 then
    ⟨s.reconnect_count + 1, some t, s.terminal_notifications + 1,
      s.reconnect_attempts + 1⟩
  else
    ⟨s.reconnect_count + 1, some t, s.terminal_notifications,
      s.reconnect_attempts + 1⟩

/-- _reconnect_qmt with a permanently failing connection (api.py lines
629-709): when the counter is at the maximum, send the terminal notification
and return without attempting; otherwise honor the 60 second cooldown and
run a failing attempt. -/
def reconnect_qmt_fail (t : ℕ) (s : ReconnectState) : ReconnectState :=
  if qmt_max_reconnect_attempts ≤ s.reconnect_count then
    ⟨s.reconnect_count, s.last_reconnect_time, s.terminal_notifications + 1,
      s.reconnect_attempts⟩
  else
    match s.last_reconnect_time with
    | some t0 => if t - t0 < 60 then s else reconnect_attempt_fail t s
    | none => reconnect_attempt_fail t s

/-- A sequence of health-check firings whose health check always fails
(api.py lines 601-627): each firing invokes _reconnect_qmt. -/
def run_health_checks (times : List ℕ) (s : ReconnectState) : ReconnectState :=
  times.foldl (fun st t => reconnect_qmt_fail t st) s

/-- A target instrument as returned by the selector. -/
structure BondInfo where
  code : String
  name : String
deriving DecidableEq

/-- The codes of the queued sell records. -/
def queue_codes (queue : List RefillItem) : Finset String :=
  (queue.map (fun item => item.stock_code)).toFinset

/-- Candidate filter of execute_scheduled_refill (auto_trade_service.py line
705): target bonds whose code is not held, in the target list's order. -/
def refill_candidates (target_bonds : List BondInfo) (held_codes : Finset String) :
    List BondInfo :=
  target_bonds.filter (fun bond => decide (bond.code ∉ held_codes))

/-- Selection of execute_scheduled_refill (auto_trade_service.py lines
697-712): broker holdings minus queued codes form the held set, candidates
are filtered in order, and the first (queue length) candidates are bought. -/
def refill_to_buy (target_bonds : List BondInfo) (current_codes : Finset String)
    (queue : List RefillItem) : List BondInfo :=
  (refill_candidates target_bonds (current_codes \ queue_codes queue)).take
    queue.length

/-- Loop body of QMTService.ensure_connected (qmt_service.py lines 276-296),
parameterised by the outcome of each health check.  Returns the result, the
number of health checks performed, and the number of sleeps taken; the code
sleeps only when further attempts remain. -/
def ensureGo (health : ℕ → Bool) : ℕ → ℕ → Bool × ℕ × ℕ
  | 0, _ => (false, 0, 0)
  | r + 1, a =>
    if health a then (true, 1, 0)
    else
      ((ensureGo health r (a + 1)).1,
       (ensureGo health r (a + 1)).2.1 + 1,
       (ensureGo health r (a + 1)).2.2 + (if 0 < r then 1 else 0))

/-- QMTService.ensure_connected: up to max_retries health checks starting at
attempt 0. -/
def ensure_connected (health : ℕ → Bool) (max_retries : ℕ) : Bool × ℕ × ℕ :=
  ensureGo health max_retries 0

/-- The fields of AppConfig that _calculate_buy_amount reads. -/
structure AppConfigM where
  buy_amount_type : String
  fixed_amount : Option ℚ
deriving DecidableEq

/-- The hard-coded 10000 yuan fallback of _calculate_buy_amount. -/
def default_buy_amount : ℚ := 10000

/-- _calculate_buy_amount (auto_trade_service.py lines 541-563): 0 without a
config or with a non-positive count; in fixed mode the configured amount with
10000 substituted for a falsy (unset or zero) fixed_amount; otherwise cash
divided by the count, with 10000 when the asset query raises. -/
def calculate_buy_amount (config : Option AppConfigM) (bond_count : ℤ)
    (asset_cash : Option ℚ) : ℚ :=
  match config with
  | none => 0
  | some cfg =>
    if bond_count ≤ 0 then 0
    else if cfg.buy_amount_type = "fixed" then
      match cfg.fixed_amount with
      | none => default_buy_amount
      | some x => if x = 0 then default_buy_amount else x
    else
      match asset_cash with
      | none => default_buy_amount
      | some cash => cash / (bond_count : ℚ)

/-- Claim C1: execute_rebalance computes to_sell = L ∩ (C − T) and
to_buy = T − C; hence to_sell ⊆ L and to_buy avoids held codes; on the
scenario T = A,B,C, L = A,X, C = A,X,Y the result is to_sell = X and
to_buy = B,C. -/
theorem rebalance_sets_spec (L C T : Finset String) :
    to_sell_codes L C T = L ∩ (C \ T) ∧
    to_buy_codes C T = T \ C ∧
    to_sell_codes L C T ⊆ L ∧
    (∀ c, c ∈ C → c ∉ to_buy_codes C T) ∧
    to_sell_codes {"A", "X"} {"A", "X", "Y"} {"A", "B", "C"} = {"X"} ∧
    to_buy_codes {"A", "X", "Y"} {"A", "B", "C"} = {"B", "C"} := by
  refine ⟨rfl, rfl, ?_, ?_, by decide, by decide⟩
  · unfold to_sell_codes
    exact Finset.inter_subset_left
  · intro c hc hmem
    unfold to_buy_codes at hmem
    exact (Finset.mem_sdiff.mp hmem).2 hc

/-- Witness for C1 at the spec scenario: code A is held, so it is not bought. -/
theorem rebalance_sets_spec_w :
    "A" ∉ to_buy_codes {"A", "X", "Y"} {"A", "B", "C"} :=
  (rebalance_sets_spec {"A", "X"} {"A", "X", "Y"} {"A", "B", "C"}).2.2.2.1
    "A" (by decide)

/-- Claim C2: the stop-profit path fires iff pct ≥ profit ratio, the
stop-loss path iff pct < profit ratio and pct ≤ −loss ratio; for positive
ratios the two trigger conditions exclude each other and both boundaries
trigger; with both ratios zero the profit branch wins on the overlap. -/
theorem stop_check_spec (pct p l : ℚ) :
    (stop_check_branch pct p l = StopAction.profit ↔ p ≤ pct) ∧
    (stop_check_branch pct p l = StopAction.loss ↔ pct < p ∧ pct ≤ -l) ∧
    (0 < p → 0 < l → ¬(p ≤ pct ∧ pct ≤ -l)) ∧
    stop_check_branch p p l = StopAction.profit ∧
    (0 < p → 0 < l → stop_check_branch (-l) p l = StopAction.loss) ∧
    (p = 0 → l = 0 → 0 ≤ pct → pct ≤ 0 →
      stop_check_branch pct p l = StopAction.profit) := by
  refine ⟨?_, ?_, ?_, ?_, ?_, ?_⟩
  · constructor
    · intro h
      unfold stop_check_branch at h
      split_ifs at h with h1 h2
      exact h1
    · intro h1
      unfold stop_check_branch
      rw [if_pos h1]
  · constructor
    · intro h
      unfold stop_check_branch at h
      split_ifs at h with h1 h2
      exact ⟨not_le.mp h1, h2⟩
    · rintro ⟨hlt, hle⟩
      unfold stop_check_branch
      rw [if_neg (not_le.mpr hlt), if_pos hle]
  · rintro hp hl ⟨h1, h2⟩
    have hpl : p ≤ -l := le_trans h1 h2
    linarith
  · unfold stop_check_branch
    rw [if_pos le_rfl]
  · intro hp hl
    unfold stop_check_branch
    have h1 : ¬ p ≤ -l := not_le.mpr (by linarith)
    rw [if_neg h1, if_pos le_rfl]
  · intro hp0 hl0 hge hle
    subst hp0
    subst hl0
    unfold stop_check_branch
    rw [if_pos hge]

/-- Witness for C2: at daily change -1 with both ratios 1 the loss boundary
triggers the stop-loss branch. -/
theorem stop_check_spec_w : stop_check_branch (-1) 1 1 = StopAction.loss :=
  (stop_check_spec (-1) 1 1).2.2.2.2.1 (by norm_num) (by norm_num)

/-- Helper: every entry surviving update_position_record keeps a positive
volume when all entries started positive. -/
theorem update_position_record_pos (code : String) (sold : ℤ) :
    ∀ ledger : List PositionRecordEntry, (∀ r ∈ ledger, 0 < r.volume) →
      ∀ s ∈ update_position_record ledger code sold, 0 < s.volume := by
  intro ledger
  induction ledger with
  | nil =>
    intro _ s hs
    simp [update_position_record] at hs
  | cons r rest ih =>
    intro hpos s hs
    rw [update_position_record] at hs
    by_cases hc : r.stock_code = code
    · rw [if_pos hc] at hs
      by_cases hv : max 0 (r.volume - sold) ≤ 0
      · rw [if_pos hv] at hs
        exact hpos s (List.mem_cons_of_mem r hs)
      · rw [if_neg hv] at hs
        rcases List.mem_cons.mp hs with h | h
        · rw [h]
          exact not_le.mp hv
        · exact hpos s (List.mem_cons_of_mem r h)
    · rw [if_neg hc] at hs
      rcases List.mem_cons.mp hs with h | h
      · rw [h]
        exact hpos r (List.mem_cons_self r rest)
      · exact ih (fun t ht => hpos t (List.mem_cons_of_mem r ht)) s h

/-- Helper: when the clamped volume stays positive, the updated entry is in
the resulting ledger. -/
theorem update_position_record_mem (code : String) (sold : ℤ) :
    ∀ ledger : List PositionRecordEntry,
      (ledger.map (fun r => r.stock_code)).Nodup →
      ∀ r ∈ ledger, r.stock_code = code → 0 < max 0 (r.volume - sold) →
        (⟨r.stock_code, r.stock_name, max 0 (r.volume - sold), r.buy_price⟩ :
            PositionRecordEntry) ∈ update_position_record ledger code sold := by
  intro ledger
  induction ledger with
  | nil =>
    intro _ r hr
    simp at hr
  | cons x rest ih =>
    intro hnd r hr hcode hvol
    have hnd' : x.stock_code ∉ rest.map (fun t => t.stock_code) ∧
        (rest.map (fun t => t.stock_code)).Nodup :=
      List.nodup_cons.mp (by simpa using hnd)
    rw [update_position_record]
    rcases List.mem_cons.mp hr with h | h
    · subst h
      rw [if_pos hcode, if_neg (not_le.mpr hvol)]
      exact List.mem_cons_self _ _
    · by_cases hc : x.stock_code = code
      · exfalso
        have hmem : r.stock_code ∈ rest.map (fun t => t.stock_code) :=
          List.mem_map_of_mem (fun t => t.stock_code) h
        apply hnd'.1
        rw [hc, ← hcode]
        exact hmem
      · rw [if_neg hc]
        exact List.mem_cons_of_mem x (ih hnd'.2 r h hcode hvol)

/-- Helper: when the clamped volume reaches 0 the entry is deleted and no
entry with that code remains. -/
theorem update_position_record_del (code : String) (sold : ℤ) :
    ∀ ledger : List PositionRecordEntry,
      (ledger.map (fun r => r.stock_code)).Nodup →
      ∀ r ∈ ledger, r.stock_code = code → max 0 (r.volume - sold) = 0 →
        ∀ s ∈ update_position_record ledger code sold, s.stock_code ≠ code := by
  intro ledger
  induction ledger with
  | nil =>
    intro _ r hr
    simp at hr
  | cons x rest ih =>
    intro hnd r hr hcode hvol
    have hnd' : x.stock_code ∉ rest.map (fun t => t.stock_code) ∧
        (rest.map (fun t => t.stock_code)).Nodup :=
      List.nodup_cons.mp (by simpa using hnd)
    rw [update_position_record]
    rcases List.mem_cons.mp hr with h | h
    · subst h
      rw [if_pos hcode, if_pos (le_of_eq hvol)]
      intro s hs hscode
      apply hnd'.1
      have hmem : s.stock_code ∈ rest.map (fun t => t.stock_code) :=
        List.mem_map_of_mem (fun t => t.stock_code) hs
      rw [hcode, ← hscode]
      exact hmem
    · by_cases hc : x.stock_code = code
      · exfalso
        have hmem : r.stock_code ∈ rest.map (fun t => t.stock_code) :=
          List.mem_map_of_mem (fun t => t.stock_code) h
        apply hnd'.1
        rw [hc, ← hcode]
        exact hmem
      · rw [if_neg hc]
        intro s hs hscode
        rcases List.mem_cons.mp hs with h2 | h2
        · apply hc
          rw [← h2]
          exact hscode
        · exact ih hnd'.2 r h hcode hvol s h2 hscode

/-- Claim C3: Database.update_position_record keeps every stored volume
nonnegative (indeed positive), clamps a decrement-on-sell to
max 0 (volume − sold), deletes the entry when that clamp reaches 0, and
leaves no zero-volume entry in the ledger. -/
theorem update_position_record_spec (ledger : List PositionRecordEntry)
    (code : String) (sold : ℤ)
    (hpos : ∀ r ∈ ledger, 0 < r.volume)
    (hnd : (ledger.map (fun r => r.stock_code)).Nodup) :
    (∀ s ∈ update_position_record ledger code sold, 0 ≤ s.volume) ∧
    (∀ s ∈ update_position_record ledger code sold, s.volume ≠ 0) ∧
    (∀ r ∈ ledger, r.stock_code = code → 0 < max 0 (r.volume - sold) →
      (⟨r.stock_code, r.stock_name, max 0 (r.volume - sold), r.buy_price⟩ :
          PositionRecordEntry) ∈ update_position_record ledger code sold) ∧
    (∀ r ∈ ledger, r.stock_code = code → max 0 (r.volume - sold) = 0 →
      ∀ s ∈ update_position_record ledger code sold, s.stock_code ≠ code) := by
  refine ⟨?_, ?_, update_position_record_mem code sold ledger hnd,
    update_position_record_del code sold ledger hnd⟩
  · intro s hs
    exact le_of_lt (update_position_record_pos code sold ledger hpos s hs)
  · intro s hs
    exact (ne_of_gt (update_position_record_pos code sold ledger hpos s hs))

/-- Witness for C3: selling 2 of 5 units of an entry clamps to max 0 3 and
keeps the entry. -/
theorem update_position_record_spec_w :
    (⟨"113001", "bond", max 0 (5 - 2), 100⟩ : PositionRecordEntry) ∈
      update_position_record [⟨"113001", "bond", 5, 100⟩] "113001" 2 :=
  (update_position_record_spec [⟨"113001", "bond", 5, 100⟩] "113001" 2
      (by decide) (by decide)).2.2.1 ⟨"113001", "bond", 5, 100⟩ (by decide)
    rfl (by decide)

/-- Claim C10: a decrement-on-sell for a code with no ledger entry is a
silent no-op, leaving the whole ledger unchanged. -/
theorem update_position_record_noop (ledger : List PositionRecordEntry)
    (code : String) (sold : ℤ)
    (habs : ∀ r ∈ ledger, r.stock_code ≠ code) :
    update_position_record ledger code sold = ledger := by
  induction ledger with
  | nil => rfl
  | cons x rest ih =>
    rw [update_position_record, if_neg (habs x (List.mem_cons_self x rest)),
      ih (fun r hr => habs r (List.mem_cons_of_mem x hr))]

/-- Witness for C10: selling a code absent from a one-entry ledger changes
nothing. -/
theorem update_position_record_noop_w :
    update_position_record [⟨"113001", "bond", 5, 100⟩] "128000" 3 =
      [⟨"113001", "bond", 5, 100⟩] :=
  update_position_record_noop [⟨"113001", "bond", 5, 100⟩] "128000" 3
    (by decide)

/-- Claim C4: _buy_bond orders floor(amount / price / 10) × 10 units for a
positive price, places no order when that volume is below one lot of 10 or
when the price is nonpositive, and orders 90 units for amount 10000 at price
105.3. -/
theorem buy_volume_spec (a p : ℚ) (hp : 0 < p) :
    (∀ v, buy_order_volume a p = some v → v = ⌊a / p / 10⌋ * 10) ∧
    (⌊a / p / 10⌋ * 10 < 10 → buy_order_volume a p = none) ∧
    (10 ≤ ⌊a / p / 10⌋ * 10 → buy_order_volume a p = some (⌊a / p / 10⌋ * 10)) ∧
    (∀ q : ℚ, q ≤ 0 → buy_order_volume a q = none) ∧
    buy_order_volume 10000 (1053 / 10) = some 90 := by
  have hnp : ¬ p ≤ 0 := not_le.mpr hp
  have hkey : buy_order_volume a p =
      if ⌊a / p / 10⌋ * 10 < 10 then none else some (⌊a / p / 10⌋ * 10) := by
    unfold buy_order_volume
    rw [if_neg hnp]
    by_cases hx : 0 ≤ a / p / 10
    · rw [show pytrunc (a / p / 10) = ⌊a / p / 10⌋ by
        unfold pytrunc
        rw [if_pos hx]]
    · have hlt : a / p / 10 < 0 := not_le.mp hx
      have hctr : pytrunc (a / p / 10) ≤ 0 := by
        unfold pytrunc
        rw [if_neg hx]
        exact Int.ceil_le.mpr (by exact_mod_cast le_of_lt hlt)
      have hfl : ⌊a / p / 10⌋ ≤ 0 := Int.floor_nonpos (le_of_lt hlt)
      have h1 : pytrunc (a / p / 10) * 10 < 10 := by omega
      have h2 : ⌊a / p / 10⌋ * 10 < 10 := by omega
      rw [if_pos h1, if_pos h2]
  refine ⟨?_, ?_, ?_, ?_, ?_⟩
  · intro v hv
    rw [hkey] at hv
    by_cases h10 : ⌊a / p / 10⌋ * 10 < 10
    · rw [if_pos h10] at hv
      exact Option.noConfusion hv
    · rw [if_neg h10] at hv
      exact (Option.some.inj hv).symm
  · intro h10
    rw [hkey, if_pos h10]
  · intro h10
    rw [hkey, if_neg (not_lt.mpr h10)]
  · intro q hq
    unfold buy_order_volume
    rw [if_pos hq]
  · have hnp2 : ¬ (1053 / 10 : ℚ) ≤ 0 := by norm_num
    have hpos2 : (0 : ℚ) ≤ 10000 / (1053 / 10) / 10 := by norm_num
    have h9 : ⌊(10000 : ℚ) / (1053 / 10) / 10⌋ = 9 := by
      rw [Int.floor_eq_iff]
      norm_num
    unfold buy_order_volume pytrunc
    rw [if_neg hnp2, if_pos hpos2, h9]
    norm_num

/-- Witness for C4 at the spec scenario: amount 10000 at price 105.3 orders
90 units. -/
theorem buy_volume_spec_w : buy_order_volume 10000 (1053 / 10) = some 90 :=
  (buy_volume_spec 10000 (1053 / 10) (by norm_num)).2.2.2.2

/-- Claim C6, amended: _add_to_refill_queue drops the batch and leaves the
queue unchanged whenever the current time is strictly past 14:50, so an item
can only be written at or before the cut-off. -/
theorem refill_queue_cutoff (t : ℕ) (items queue : List RefillItem) :
    (refill_deadline_seconds < t → add_to_refill_queue t items queue = queue) ∧
    (add_to_refill_queue t items queue ≠ queue → t ≤ refill_deadline_seconds) := by
  constructor
  · intro h
    by_cases he : items = []
    · rw [add_to_refill_queue, if_pos he]
    · rw [add_to_refill_queue, if_neg he, if_pos h]
  · intro hne
    by_contra hgt
    rw [not_le] at hgt
    apply hne
    by_cases he : items = []
    · rw [add_to_refill_queue, if_pos he]
    · rw [add_to_refill_queue, if_neg he, if_pos hgt]

/-- Witness for C6: one second past the cut-off a nonempty batch is dropped. -/
theorem refill_queue_cutoff_w :
    add_to_refill_queue (refill_deadline_seconds + 1)
      [⟨"113001", "bond", 10, 105, "take-profit"⟩] [] = [] :=
  (refill_queue_cutoff (refill_deadline_seconds + 1)
      [⟨"113001", "bond", 10, 105, "take-profit"⟩] []).1 (by decide)

/-- Counterexample for C6 as stated: at exactly 14:50:00 the batch is still
enqueued (the queue changes), yet that instant is not strictly before the
cut-off, so items are not only created before the cut-off. -/
theorem refill_queue_cutoff_cex :
    add_to_refill_queue refill_deadline_seconds
        [⟨"113001", "bond", 10, 105, "take-profit"⟩] [] ≠ [] ∧
    ¬ refill_deadline_seconds < refill_deadline_seconds := by
  decide

/-- Claim C5, amended: once the failure counter has reached the maximum of 3,
every further health-check firing performs no reconnect attempt and leaves
the counter unchanged, but re-sends the terminal failure notification on
every such firing (one per firing, not exactly once overall). -/
theorem run_checks_exhausted (ts : List ℕ) :
    ∀ s : ReconnectState, qmt_max_reconnect_attempts ≤ s.reconnect_count →
      (run_health_checks ts s).reconnect_attempts = s.reconnect_attempts ∧
      (run_health_checks ts s).reconnect_count = s.reconnect_count ∧
      (run_health_checks ts s).terminal_notifications =
        s.terminal_notifications + ts.length := by
  induction ts with
  | nil =>
    intro s h
    exact ⟨rfl, rfl, rfl⟩
  | cons t rest ih =>
    intro s h
    have hstep : reconnect_qmt_fail t s =
        ⟨s.reconnect_count, s.last_reconnect_time,
          s.terminal_notifications + 1, s.reconnect_attempts⟩ := by
      rw [reconnect_qmt_fail, if_pos h]
    have hrun : run_health_checks (t :: rest) s =
        run_health_checks rest (reconnect_qmt_fail t s) := rfl
    rw [hrun, hstep]
    have h3 := ih ⟨s.reconnect_count, s.last_reconnect_time,
      s.terminal_notifications + 1, s.reconnect_attempts⟩ h
    refine ⟨h3.1, h3.2.1, ?_⟩
    rw [h3.2.2]
    simp only [List.length_cons]
    omega

/-- Witness for C5: from an exhausted state with counter 3, two more firings
add no attempt but two more notifications. -/
theorem run_checks_exhausted_w :
    (run_health_checks [180, 240] ⟨3, some 120, 1, 3⟩).reconnect_attempts = 3 ∧
    (run_health_checks [180, 240] ⟨3, some 120, 1, 3⟩).reconnect_count = 3 ∧
    (run_health_checks [180, 240] ⟨3, some 120, 1, 3⟩).terminal_notifications =
      1 + 2 :=
  run_checks_exhausted [180, 240] ⟨3, some 120, 1, 3⟩ (by decide)

/-- Counterexample for C5 as stated: with health checks firing at 0, 60, 120,
180 and 240 seconds and every reconnect failing, the third attempt exhausts
the counter with one terminal notification, yet after the two further
firings three notifications have been sent: the terminal notification is not
sent exactly once (no further attempt is performed, as the attempt count
stays at 3). -/
theorem reconnect_notification_cex :
    (run_health_checks [0, 60, 120] ⟨0, none, 0, 0⟩).reconnect_count = 3 ∧
    (run_health_checks [0, 60, 120] ⟨0, none, 0, 0⟩).terminal_notifications = 1 ∧
    (run_health_checks [0, 60, 120, 180, 240] ⟨0, none, 0, 0⟩).reconnect_attempts
      = 3 ∧
    (run_health_checks [0, 60, 120, 180, 240]
        ⟨0, none, 0, 0⟩).terminal_notifications = 3 := by
  decide

/-- Claim C7: execute_scheduled_refill's candidate list is the target list
filtered to codes outside holdings-minus-queued-codes, as an order-preserving
subsequence of the target list, and the buy list is exactly the first
min(queue length, candidate count) candidates. -/
theorem refill_selection_spec (T : List BondInfo) (C : Finset String)
    (Q : List RefillItem) :
    (∀ b, b ∈ refill_candidates T (C \ queue_codes Q) ↔
      b ∈ T ∧ b.code ∉ C \ queue_codes Q) ∧
    List.Sublist (refill_candidates T (C \ queue_codes Q)) T ∧
    refill_to_buy T C Q = (refill_candidates T (C \ queue_codes Q)).take Q.length ∧
    (refill_to_buy T C Q).length =
      min Q.length (refill_candidates T (C \ queue_codes Q)).length ∧
    refill_to_buy T C Q ++
        (refill_candidates T (C \ queue_codes Q)).drop Q.length =
      refill_candidates T (C \ queue_codes Q) := by
  refine ⟨?_, ?_, rfl, ?_, ?_⟩
  · intro b
    unfold refill_candidates
    simp [List.mem_filter]
    tauto
  · unfold refill_candidates
    exact List.filter_sublist T
  · unfold refill_to_buy
    exact List.length_take Q.length (refill_candidates T (C \ queue_codes Q))
  · unfold refill_to_buy
    exact List.take_append_drop Q.length (refill_candidates T (C \ queue_codes Q))

/-- Witness for C7: with target A then B, only A held and nothing queued,
bond B is a candidate. -/
theorem refill_selection_spec_w :
    (⟨"B", "b"⟩ : BondInfo) ∈
      refill_candidates [⟨"A", "a"⟩, ⟨"B", "b"⟩] ({"A"} \ queue_codes []) :=
  ((refill_selection_spec [⟨"A", "a"⟩, ⟨"B", "b"⟩] {"A"} []).1
    ⟨"B", "b"⟩).mpr (by decide)

/-- Helper: ensure_connected never performs more health checks than
max_retries. -/
theorem ensureGo_checks_le (health : ℕ → Bool) :
    ∀ r a, (ensureGo health r a).2.1 ≤ r := by
  intro r
  induction r with
  | zero =>
    intro a
    exact le_refl 0
  | succ n ih =>
    intro a
    rw [ensureGo]
    by_cases hh : health a = true
    · rw [if_pos hh]
      exact Nat.succ_le_succ (Nat.zero_le n)
    · rw [if_neg hh]
      exact Nat.succ_le_succ (ih (a + 1))

/-- Helper: when every probe fails, all max_retries checks are spent with one
fewer sleeps and the result is false. -/
theorem ensureGo_all_fail (health : ℕ → Bool) :
    ∀ r a, (∀ i, i < r → health (a + i) = false) →
      ensureGo health r a = (false, r, r - 1) := by
  intro r
  induction r with
  | zero =>
    intro a _
    rfl
  | succ n ih =>
    intro a hf
    have h0 : health a = false := by simpa using hf 0 (Nat.succ_pos n)
    rw [ensureGo, if_neg (by simp [h0])]
    have hrest : ensureGo health n (a + 1) = (false, n, n - 1) := by
      apply ih
      intro i hi
      have hx := hf (i + 1) (Nat.succ_lt_succ hi)
      rw [show a + 1 + i = a + (i + 1) by omega]
      exact hx
    rw [hrest]
    simp only [Prod.mk.injEq]
    refine ⟨trivial, trivial, ?_⟩
    split_ifs with hn <;> omega

/-- Helper: the loop returns true right after the first successful check. -/
theorem ensureGo_first_success (health : ℕ → Bool) :
    ∀ k r a, k < r → health (a + k) = true →
      (∀ i, i < k → health (a + i) = false) →
      ensureGo health r a = (true, k + 1, k) := by
  intro k
  induction k with
  | zero =>
    intro r a hkr hk _
    obtain ⟨n, rfl⟩ : ∃ n, r = n + 1 :=
      ⟨r - 1, (Nat.succ_pred_eq_of_pos hkr).symm⟩
    rw [ensureGo, if_pos (by simpa using hk)]
  | succ k ih =>
    intro r a hkr hk hf
    obtain ⟨n, rfl⟩ : ∃ n, r = n + 1 :=
      ⟨r - 1, (Nat.succ_pred_eq_of_pos (Nat.lt_of_le_of_lt (Nat.zero_le _)
        hkr)).symm⟩
    have h0 : health a = false := by simpa using hf 0 (Nat.succ_pos k)
    rw [ensureGo, if_neg (by simp [h0])]
    have hrest : ensureGo health n (a + 1) = (true, k + 1, k) := by
      apply ih
      · omega
      · rw [show a + 1 + k = a + (k + 1) by omega]
        exact hk
      · intro i hi
        rw [show a + 1 + i = a + (i + 1) by omega]
        exact hf (i + 1) (Nat.succ_lt_succ hi)
    rw [hrest]
    have hn : 0 < n := by omega
    simp only [Prod.mk.injEq]
    refine ⟨trivial, trivial, ?_⟩
    rw [if_pos hn]

/-- Claim C8: ensure_connected probes at most max_retries times, returns true
right after the first success with one sleep between consecutive attempts,
returns false after all probes fail, and with max_retries 2 and a permanently
failing probe performs exactly 2 checks and 1 sleep before returning false. -/
theorem ensure_connected_spec (health : ℕ → Bool) (m : ℕ) :
    (ensure_connected health m).2.1 ≤ m ∧
    (∀ k, k < m → health k = true → (∀ i, i < k → health i = false) →
      ensure_connected health m = (true, k + 1, k)) ∧
    ((∀ i, i < m → health i = false) → ensure_connected health m = (false, m, m - 1)) ∧
    ensure_connected (fun _ => false) 2 = (false, 2, 1) := by
  refine ⟨ensureGo_checks_le health m 0, ?_, ?_, rfl⟩
  · intro k hk hkt hkf
    exact ensureGo_first_success health k m 0 hk (by simpa using hkt)
      (fun i hi => by simpa using hkf i hi)
  · intro hf
    exact ensureGo_all_fail health m 0 (fun i hi => by simpa using hf i hi)

/-- Witness for C8: three permanently failing probes spend 3 checks and 2
sleeps and return false. -/
theorem ensure_connected_spec_w :
    ensure_connected (fun _ => false) 3 = (false, 3, 2) :=
  (ensure_connected_spec (fun _ => false) 3).2.2.1 (fun _ _ => rfl)

/-- Claim C9: _calculate_buy_amount returns 0 without a config or with a
non-positive count, substitutes the 10000 default for an unset or zero
fixed_amount in fixed mode, returns the configured fixed amount otherwise,
and falls back to 10000 in average mode when the asset query raises. -/
theorem calculate_buy_amount_spec (config : Option AppConfigM) (n : ℤ)
    (cash : Option ℚ) :
    calculate_buy_amount none n cash = 0 ∧
    (n ≤ 0 → calculate_buy_amount config n cash = 0) ∧
    (∀ cfg, config = some cfg → 0 < n → cfg.buy_amount_type = "fixed" →
      cfg.fixed_amount = none →
      calculate_buy_amount config n cash = default_buy_amount) ∧
    (∀ cfg, config = some cfg → 0 < n → cfg.buy_amount_type = "fixed" →
      cfg.fixed_amount = some 0 →
      calculate_buy_amount config n cash = default_buy_amount) ∧
    (∀ cfg x, config = some cfg → 0 < n → cfg.buy_amount_type = "fixed" →
      cfg.fixed_amount = some x → x ≠ 0 →
      calculate_buy_amount config n cash = x) ∧
    (∀ cfg, config = some cfg → 0 < n → cfg.buy_amount_type ≠ "fixed" →
      cash = none → calculate_buy_amount config n cash = default_buy_amount) := by
  refine ⟨rfl, ?_, ?_, ?_, ?_, ?_⟩
  · intro hn
    cases config with
    | none => rfl
    | some cfg =>
      simp only [calculate_buy_amount]
      rw [if_pos hn]
  · intro cfg hcfg hn hft hfa
    subst hcfg
    simp only [calculate_buy_amount]
    rw [if_neg (not_le.mpr hn), if_pos hft, hfa]
  · intro cfg hcfg hn hft hfa
    subst hcfg
    simp only [calculate_buy_amount]
    rw [if_neg (not_le.mpr hn), if_pos hft, hfa]
    simp
  · intro cfg x hcfg hn hft hfa hx
    subst hcfg
    simp only [calculate_buy_amount]
    rw [if_neg (not_le.mpr hn), if_pos hft, hfa]
    simp [hx]
  · intro cfg hcfg hn hft hcash
    subst hcfg
    subst hcash
    simp only [calculate_buy_amount]
    rw [if_neg (not_le.mpr hn), if_neg hft]

/-- Witness for C9: fixed mode with fixed_amount 0 yields the 10000 default. -/
theorem calculate_buy_amount_spec_w :
    calculate_buy_amount (some ⟨"fixed", some 0⟩) 5 none = default_buy_amount :=
  (calculate_buy_amount_spec (some ⟨"fixed", some 0⟩) 5 none).2.2.2.1
    ⟨"fixed", some 0⟩ rfl (by norm_num) rfl rfl

end QmtCb
